import Mathlib

/-!
Verification of the AULA F87 HID protocol engine (webhid.ts) against its
specification.  Frames are 20-byte HID reports modelled as `List Nat` with
every store truncated modulo 256 (Uint8Array semantics).  The high-level
operations `setEffect`, `applyPerKey` and `setSleepTimer` are embedded as
pure functions from the read-phase result (an array of 10 optional
fragments) to the frames they queue for write.
-/

namespace AulaF87

/-- Report id constant (protocol doc: always 0x13). -/
def REPORT_ID : Nat := 0x13
/-- Command byte: read current config. -/
def CMD_READ : Nat := 0x44
/-- Command byte: write config. -/
def CMD_WRITE : Nat := 0x04
/-- Command byte: write color palette. -/
def CMD_COLOR : Nat := 0x09
/-- Command byte: write per-key color map. -/
def CMD_PERKEY : Nat := 0x02
/-- Command byte: commit changes to flash. -/
def CMD_SAVE : Nat := 0x0A
/-- Subcommand byte: config. -/
def SUBCMD_CONFIG : Nat := 0x0A
/-- Subcommand byte: palette. -/
def SUBCMD_PALETTE : Nat := 0x25
/-- Subcommand byte: per-key. -/
def SUBCMD_PERKEY : Nat := 0x1C
/-- Subcommand byte: confirm. -/
def SUBCMD_CONFIRM : Nat := 0x01
/-- Effect number of the self-define (per-key) effect. -/
def SELF_DEFINE_EFFECT : Nat := 21

/-- Byte store into a frame: `Uint8Array` assignment truncates modulo 256. -/
def bset (f : List Nat) (i v : Nat) : List Nat := f.set i (v % 256)

/-- Byte read from a frame (out-of-range reads modelled as 0). -/
def bget (f : List Nat) (i : Nat) : Nat := f.getD i 0

/-- Modelled from the spec: `checksum` of `lib/protocol.ts` is absent from
src; the spec and the in-repo protocol doc define it as the sum of bytes
0–18 modulo 256. -/
def checksum (f : List Nat) : Nat := (f.take 19).sum % 256

/-- Zero-pad a payload to 15 bytes (spec 4.1: `buildFrame` zero-pads). -/
def padPayload (p : List Nat) : List Nat := (p ++ List.replicate 15 0).take 15

/-- Modelled from the spec: `buildFrame` of `lib/protocol.ts` is absent from
src; the spec defines it as header `[report_id, command, subcommand,
sequence]`, 15-byte zero-padded payload, then the checksum over bytes 0–18. -/
def buildFrame (cmd sub seq : Nat) (payload : List Nat) : List Nat :=
  let body := ([REPORT_ID, cmd, sub, seq] ++ padPayload payload).map (· % 256)
  body ++ [checksum body]

/-- Modelled from the spec: `encodeSpeedByte` of `lib/protocol.ts` is absent
from src; spec 4.2: high nibble = speed, low nibble = 0x7 if colorful else
0x0. -/
def encodeSpeedByte (speed : Nat) (colorful : Bool) : Nat :=
  speed * 16 + (if colorful then 7 else 0)

/-- Modelled from the spec: `decodeSpeedByte` of `lib/protocol.ts` is absent
from src; spec 4.2: the exact inverse of `encodeSpeedByte`, returning the
high nibble as the speed and whether the low nibble is the colorful code
0x7. -/
def decodeSpeedByte (b : Nat) : Nat × Bool :=
  (b / 16, b % 16 == 7)

/-- Modelled from the spec: `effectTableLoc` of `lib/protocol.ts` is absent
from src; spec 4.2 gives `(configFragmentIndex, byteOffset)` as
`(4, 7+(n-1)*2)` for effects 1–6, `(5, 5+(n-7)*2)` for 7–13 and
`(6, 5+(n-14)*2)` for 14–18.  Effect 21 has no table entry; values outside
1–18 are unspecified and never used by the theorems below. -/
def effectTableLoc (n : Nat) : Nat × Nat :=
  if 1 ≤ n ∧ n ≤ 6 then (4, 7 + (n - 1) * 2)
  else if 7 ≤ n ∧ n ≤ 13 then (5, 5 + (n - 7) * 2)
  else if 14 ≤ n ∧ n ≤ 18 then (6, 5 + (n - 14) * 2)
  else (0, 0)

/-- Modelled from the spec: the `EFFECTS` table of `lib/protocol.ts` is
absent from src; the spec and the protocol doc list entries for effect
numbers 1–18 and 21 (self-define). -/
def hasEffect (n : Nat) : Bool :=
  (1 ≤ n && n ≤ 18) || n == SELF_DEFINE_EFFECT

/-- Modelled from the spec: the static fallback `CFG_TEMPLATE` of
`lib/protocol.ts` (ten 15-byte config payloads) is absent from src; its
byte content is irrelevant to the claims, which only use its role as a
fixed fallback, so a fixed placeholder content is used. -/
def CFG_TEMPLATE (seq : Nat) : List Nat :=
  List.replicate 15 0 |>.set 0 ((seq + 1) % 256)

-- ── Basic byte-level lemmas ─────────────────────────────────────────────

theorem length_bset (f : List Nat) (i v : Nat) : (bset f i v).length = f.length :=
  List.length_set ..

theorem bget_bset_eq {f : List Nat} {i : Nat} (h : i < f.length) (v : Nat) :
    bget (bset f i v) i = v % 256 := by
  simp [bget, bset, List.getD_eq_getElem?_getD, List.getElem?_set_self, h]

theorem bget_bset_ne {i j : Nat} (h : i ≠ j) (f : List Nat) (v : Nat) :
    bget (bset f i v) j = bget f j := by
  simp [bget, bset, List.getD_eq_getElem?_getD, List.getElem?_set_ne h]

theorem bset_eq_self {f : List Nat} {i v : Nat} (hi : i < f.length)
    (h : bget f i = v % 256) : bset f i v = f := by
  apply List.ext_getElem?
  intro j
  by_cases hj : i = j
  · subst hj
    simp only [bset, List.getElem?_set_self hi]
    simp only [bget, List.getD_eq_getElem?_getD, List.getElem?_eq_getElem hi,
      Option.getD_some] at h
    simp [List.getElem?_eq_getElem hi, h]
  · simp [bset, List.getElem?_set_ne hj]

theorem take_bset_of_le {n i : Nat} (h : n ≤ i) (f : List Nat) (v : Nat) :
    (bset f i v).take n = f.take n := by
  apply List.ext_getElem?
  intro j
  rcases Nat.lt_or_ge j n with hj | hj
  · simp [List.getElem?_take, hj, bset,
      List.getElem?_set_ne (Nat.ne_of_gt (Nat.lt_of_lt_of_le hj h))]
  · have h1 : ((bset f i v).take n)[j]? = none := by
      apply List.getElem?_eq_none
      simp only [List.length_take, length_bset]
      omega
    have h2 : (f.take n)[j]? = none := by
      apply List.getElem?_eq_none
      simp only [List.length_take]
      omega
    rw [h1, h2]

theorem checksum_bset19 (f : List Nat) (v : Nat) :
    checksum (bset f 19 v) = checksum f := by
  simp [checksum, take_bset_of_le (Nat.le_refl 19)]

theorem checksum_lt (f : List Nat) : checksum f < 256 :=
  Nat.mod_lt _ (by omega)

-- ── readConfig (webhid.ts lines 62–79) ──────────────────────────────────

/-- The single READ/CONFIRM frame sent by `readConfig` (line 63):
`buildFrame(CMD_READ, SUBCMD_CONFIRM, 0, new Uint8Array(15))`. -/
def readConfigSent : List Nat :=
  buildFrame CMD_READ SUBCMD_CONFIRM 0 (List.replicate 15 0)

/-- The filter of line 70: `r.length >= 20 && r[0] === REPORT_ID &&
r[1] === CMD_READ && r[2] === SUBCMD_CONFIG`. -/
def keepReport (r : List Nat) : Bool :=
  20 ≤ r.length && bget r 0 == REPORT_ID && bget r 1 == CMD_READ &&
    bget r 2 == SUBCMD_CONFIG

/-- The receive loop of `readConfig` (lines 66–77): up to `fuel` receive
attempts, each yielding either a report or `none` (timeout, which breaks
the loop); a kept report with in-range sequence is stored under its
sequence, overwriting any earlier fragment there. -/
def collectConfig : Nat → List (Option (List Nat)) →
    (Nat → Option (List Nat)) → Nat → Option (List Nat)
  | 0, _, acc => acc
  | _ + 1, [], acc => acc
  | _ + 1, none :: _, acc => acc
  | k + 1, some r :: rest, acc =>
      collectConfig k rest
        (if keepReport r && bget r 3 < 10 then
          fun j => if j = bget r 3 then some r else acc j
        else acc)

/-- The result of `readConfig`'s receive phase on a given stream of receive
results: the 10-slot fragment array (modelled as a function; slots outside
0–9 are always empty). -/
def readConfigResult (reports : List (Option (List Nat))) :
    Nat → Option (List Nat) :=
  collectConfig 12 reports (fun _ => none)

/-- The completeness check used by all three operations
(`config.every(c => c !== null)`). -/
def gotCfg (cfg : Nat → Option (List Nat)) : Prop :=
  ∀ s < 10, (cfg s).isSome

instance (cfg : Nat → Option (List Nat)) : Decidable (gotCfg cfg) :=
  Nat.decidableBallLT 10 _

-- ── High-level operations (webhid.ts lines 82–239) ──────────────────────

/-- The options record of `setEffect` (lines 82–87) with the defaults of
line 93 already applied. -/
structure EffectOpts where
  colorRgb : Option (Nat × Nat × Nat) := none
  colorful : Bool := false
  speed : Option Nat := none
  brightness : Option Nat := none

/-- The save frame sent by phase 4 of every operation (lines 151–153):
payload `[0x04, 0x07, 0, …]`. -/
def saveFrame : List Nat :=
  buildFrame CMD_SAVE SUBCMD_CONFIRM 0 ([0x04, 0x07] ++ List.replicate 13 0)

/-- One write frame of `setEffect`'s phase 2 on the `gotConfig` branch
(lines 113–122): copy the read fragment, switch the command to WRITE,
mutate fragment 0's confirm/apply/effect/color-mode bytes, mutate the
effect's brightness/speed pair at its table location, recompute the
checksum. -/
def setEffectGotFrame (n : Nat) (o : EffectOpts) (seq : Nat)
    (f0 : List Nat) : List Nat :=
  let t := effectTableLoc n
  let f1 := bset f0 1 CMD_WRITE
  let f2 :=
    if seq = 0 then
      bset (bset (bset (bset f1 8 0x01) 14 0x00) 15 n) 17
        (if o.colorRgb.isSome || o.colorful then 0x01 else 0x03)
    else f1
  let f3 :=
    if seq = t.1 then
      let fb := match o.brightness with
        | some b => bset f2 t.2 b
        | none => f2
      let cur := decodeSpeedByte (bget fb (t.2 + 1))
      bset fb (t.2 + 1)
        (encodeSpeedByte (o.speed.getD cur.1)
          (if o.colorful then true else o.colorRgb.isNone && cur.2))
    else f2
  bset f3 19 (checksum f3)

/-- One write frame of `setEffect`'s phase 2 on the template branch
(lines 124–132): patch the 15-byte template payload (payload offsets are
frame offsets minus 4) and build a WRITE/CONFIG frame. -/
def setEffectTmplFrame (n : Nat) (o : EffectOpts) (seq : Nat) : List Nat :=
  let t := effectTableLoc n
  let p0 := CFG_TEMPLATE seq
  let p1 :=
    if seq = 0 then
      bset (bset (bset (bset p0 4 0x01) 10 0x00) 11 n) 13
        (if o.colorRgb.isSome || o.colorful then 0x01 else 0x03)
    else p0
  let p2 :=
    if seq = t.1 then
      let payOff := t.2 - 4
      let pb := match o.brightness with
        | some b => bset p1 payOff b
        | none => p1
      let cur := decodeSpeedByte (bget pb (payOff + 1))
      bset pb (payOff + 1)
        (encodeSpeedByte (o.speed.getD cur.1)
          (if o.colorful then true else o.colorRgb.isNone && cur.2))
    else p1
  buildFrame CMD_WRITE SUBCMD_CONFIG seq p2

/-- Phase 2 of `setEffect` (lines 109–135): the ten config write frames
queued for the device, built from the read fragments when the read was
complete, else from the static template. -/
def setEffectConfigFrames (cfg : Nat → Option (List Nat)) (n : Nat)
    (o : EffectOpts) : List (List Nat) :=
  (List.range 10).map fun seq =>
    if gotCfg cfg then setEffectGotFrame n o seq ((cfg seq).getD [])
    else setEffectTmplFrame n o seq

/-- `setEffect` (lines 89–155) up to its frame content: `none` when the
effect number is outside the effect table (line 91 aborts); otherwise the
config write frames and the save frame.  (The 37 palette frames of phase 3
use palette template constants that are not part of the claims.) -/
def setEffectPlan (cfg : Nat → Option (List Nat)) (n : Nat) (o : EffectOpts) :
    Option (List (List Nat) × List Nat) :=
  if hasEffect n then some (setEffectConfigFrames cfg n o, saveFrame) else none

/-- One config write frame of `applyPerKey`'s phase 2 on the `gotConfig`
branch (lines 168–172): like `setEffect` but forcing effect 21 and color
mode 0x01, with no parameter-table mutation. -/
def perKeyGotFrame (seq : Nat) (f0 : List Nat) : List Nat :=
  let f1 := bset f0 1 CMD_WRITE
  let f2 :=
    if seq = 0 then
      bset (bset (bset (bset f1 8 0x01) 14 0x00) 15 SELF_DEFINE_EFFECT) 17 0x01
    else f1
  bset f2 19 (checksum f2)

/-- One config write frame of `applyPerKey`'s phase 2 on the template
branch (lines 174–176). -/
def perKeyTmplFrame (seq : Nat) : List Nat :=
  let p0 := CFG_TEMPLATE seq
  let p1 :=
    if seq = 0 then
      bset (bset (bset (bset p0 4 0x01) 10 0x00) 11 SELF_DEFINE_EFFECT) 13 0x01
    else p0
  buildFrame CMD_WRITE SUBCMD_CONFIG seq p1

/-- Phase 2 of `applyPerKey` (lines 164–179): the ten config write frames. -/
def perKeyConfigFrames (cfg : Nat → Option (List Nat)) : List (List Nat) :=
  (List.range 10).map fun seq =>
    if gotCfg cfg then perKeyGotFrame seq ((cfg seq).getD [])
    else perKeyTmplFrame seq

/-- The three 126-entry color planes of `applyPerKey` (lines 183–187):
`keyColors` is modelled as the entry list of the record; an entry with
index outside 0–125 is skipped, an in-range entry stores its channel
values (modulo 256, Uint8Array semantics) at its index in each plane. -/
def addPlaneEntry (P : (Nat → Nat) × (Nat → Nat) × (Nat → Nat))
    (e : Int × Nat × Nat × Nat) : (Nat → Nat) × (Nat → Nat) × (Nat → Nat) :=
  if 0 ≤ e.1 ∧ e.1 < 126 then
    ((fun x => if x = e.1.toNat then e.2.1 % 256 else P.1 x),
     (fun x => if x = e.1.toNat then e.2.2.1 % 256 else P.2.1 x),
     (fun x => if x = e.1.toNat then e.2.2.2 % 256 else P.2.2 x))
  else P

/-- The R/G/B planes after processing all entries of the key-color map. -/
def perKeyPlanes (entries : List (Int × Nat × Nat × Nat)) :
    (Nat → Nat) × (Nat → Nat) × (Nat → Nat) :=
  entries.foldl addPlaneEntry ((fun _ => 0), (fun _ => 0), (fun _ => 0))

/-- The nine data frames of one color plane (lines 190–197): fragment `s`
carries marker byte 0x0e then the 14 channel values for LED indices
`s*14 .. s*14+13`; `base` is the running global sequence offset. -/
def planeFrames (base : Nat) (plane : Nat → Nat) : List (List Nat) :=
  (List.range 9).map fun s =>
    buildFrame CMD_PERKEY SUBCMD_PERKEY (base + s)
      (0x0e :: ((List.range 14).map fun j => plane (s * 14 + j)))

/-- The trailer frame (lines 198–200): sequence 27, payload
`[0x06, 0, 0, 0x5a, 0xa5, 0, …]`. -/
def perKeyTrailerFrame : List Nat :=
  buildFrame CMD_PERKEY SUBCMD_PERKEY 27
    ([0x06, 0x00, 0x00, 0x5a, 0xa5] ++ List.replicate 10 0)

/-- Phase 3 of `applyPerKey` (lines 182–201): the 28 per-key map frames,
planes R, G, B in order with global sequence numbers 0–26, then the
trailer at sequence 27. -/
def perKeyMapFrames (entries : List (Int × Nat × Nat × Nat)) :
    List (List Nat) :=
  let P := perKeyPlanes entries
  planeFrames 0 P.1 ++ planeFrames 9 P.2.1 ++ planeFrames 18 P.2.2 ++
    [perKeyTrailerFrame]

/-- `applyPerKey` (lines 157–208) up to its frame content: the config
write frames, the per-key map frames and the save frame.  The operation
never aborts. -/
def applyPerKeyPlan (cfg : Nat → Option (List Nat))
    (entries : List (Int × Nat × Nat × Nat)) :
    List (List Nat) × List (List Nat) × List Nat :=
  (perKeyConfigFrames cfg, perKeyMapFrames entries, saveFrame)

/-- One config write frame of `setSleepTimer`'s phase 2 (lines 224–231):
switch the command to WRITE, set fragment 0's confirm flag, store the
sleep byte at fragment 1 byte 15, recompute the checksum.  Note: byte 14
(the apply flag) is not touched. -/
def sleepFrame (sleepByte seq : Nat) (f0 : List Nat) : List Nat :=
  let f1 := bset f0 1 CMD_WRITE
  let f2 := if seq = 0 then bset f1 8 0x01 else f1
  let f3 := if seq = 1 then bset f2 15 sleepByte else f2
  bset f3 19 (checksum f3)

/-- `setSleepTimer` (lines 210–239): aborts (`none`) when the read was
incomplete (line 217); otherwise queues the ten config write frames with
`minutes * 2` (truncated to a byte, Uint8Array semantics) stored at
fragment 1 byte 15, and the save frame. -/
def setSleepTimerPlan (cfg : Nat → Option (List Nat)) (minutes : Int) :
    Option (List (List Nat) × List Nat) :=
  if gotCfg cfg then
    let sleepByte := ((minutes * 2).emod 256).toNat
    some ((List.range 10).map (fun s => sleepFrame sleepByte s ((cfg s).getD [])),
      saveFrame)
  else none

-- ── Shared helper lemmas ────────────────────────────────────────────────

theorem getD_map_range {g : Nat → List Nat} {i n : Nat} (h : i < n) :
    ((List.range n).map g).getD i [] = g i := by
  simp [List.getD_eq_getElem?_getD, List.getElem?_map, List.getElem?_range h]

theorem bget_lt_256 {f : List Nat} (h : ∀ b ∈ f, b < 256) (i : Nat) :
    bget f i < 256 := by
  unfold bget
  rcases Nat.lt_or_ge i f.length with hi | hi
  · rw [List.getD_eq_getElem?_getD, List.getElem?_eq_getElem hi, Option.getD_some]
    exact h _ (List.getElem_mem hi)
  · rw [List.getD_eq_getElem?_getD, List.getElem?_eq_none hi]
    simp

theorem buildFrame_length (c s q : Nat) (p : List Nat) :
    (buildFrame c s q p).length = 20 := by
  simp [buildFrame, padPayload, checksum]

theorem bget_buildFrame_hdr (c s q : Nat) (p : List Nat) :
    bget (buildFrame c s q p) 0 = REPORT_ID % 256 ∧
    bget (buildFrame c s q p) 1 = c % 256 ∧
    bget (buildFrame c s q p) 2 = s % 256 ∧
    bget (buildFrame c s q p) 3 = q % 256 := by
  simp [buildFrame, bget, padPayload, List.getD]

theorem bget_buildFrame_payload (c s q : Nat) {p : List Nat}
    (hp : p.length = 15) {j : Nat} (hj : j < 15) :
    bget (buildFrame c s q p) (4 + j) = p.getD j 0 % 256 := by
  have hpad : padPayload p = p := by
    show (p ++ List.replicate 15 0).take 15 = p
    rw [← hp]
    exact List.take_left ..
  have hbody : (([REPORT_ID, c, s, q] ++ padPayload p).map (· % 256)).length = 19 := by
    simp [hpad, hp]
  unfold buildFrame bget
  rw [List.getD_eq_getElem?_getD]
  rw [List.getElem?_append_left (by omega)]
  rw [List.getElem?_map, hpad]
  have : ([REPORT_ID, c, s, q] ++ p)[4 + j]? = p[j]? := by
    rw [List.getElem?_append_right (by simp)]
    simp
  rw [this, List.getElem?_eq_getElem (by omega), List.getD_eq_getElem?_getD,
    List.getElem?_eq_getElem (by omega)]
  simp

theorem length_setEffectGotFrame (n : Nat) (o : EffectOpts) (seq : Nat)
    (f0 : List Nat) : (setEffectGotFrame n o seq f0).length = f0.length := by
  unfold setEffectGotFrame
  repeat' split
  all_goals by_cases hs : seq = (effectTableLoc n).1 <;> simp [hs, length_bset]

theorem length_sleepFrame (sb seq : Nat) (f0 : List Nat) :
    (sleepFrame sb seq f0).length = f0.length := by
  unfold sleepFrame
  repeat' split
  all_goals simp [length_bset]

-- ── C8: speed-byte round trip ───────────────────────────────────────────

/-- C8: for every speed in 0–4 and every colorful flag,
`decodeSpeedByte (encodeSpeedByte speed colorful) = (speed, colorful)`:
the encoder packs the speed into the high nibble and 0x7 (colorful) or 0x0
(single-color) into the low nibble, and the decoder inverts it on all 10
valid combinations. -/
theorem speed_byte_round_trip (s : Fin 5) (c : Bool) :
    decodeSpeedByte (encodeSpeedByte s.val c) = (s.val, c) := by
  revert s c
  decide

-- ── C10: setSleepTimer performs no validation of minutes ────────────────

/-- C10: `setSleepTimer` does not validate its minutes argument: for any
integer minutes with a complete read it proceeds, storing
`(minutes * 2) mod 256` (Uint8Array truncation) into fragment 1 byte 15 of
the queued write frames, and completes the transaction with the save
frame. -/
theorem sleep_timer_no_validation (cfg : Nat → Option (List Nat))
    (h : ∀ s < 10, (cfg s).isSome ∧ 20 ≤ ((cfg s).getD []).length)
    (m : Int) :
    setSleepTimerPlan cfg m =
      some ((List.range 10).map
        (fun s => sleepFrame ((m * 2).emod 256).toNat s ((cfg s).getD [])),
        saveFrame) ∧
    ((setSleepTimerPlan cfg m).getD ([], [])).1.length = 10 ∧
    bget (((setSleepTimerPlan cfg m).getD ([], [])).1.getD 1 []) 15 =
      ((m * 2).emod 256).toNat := by
  have hg : gotCfg cfg := fun s hs => (h s hs).1
  have hplan : setSleepTimerPlan cfg m =
      some ((List.range 10).map
        (fun s => sleepFrame ((m * 2).emod 256).toNat s ((cfg s).getD [])),
        saveFrame) := by
    simp [setSleepTimerPlan, hg]
  refine ⟨hplan, ?_, ?_⟩
  · simp [hplan]
  · rw [hplan]
    simp only [Option.getD_some]
    rw [getD_map_range (by omega)]
    have hlen : 20 ≤ ((cfg 1).getD []).length := (h 1 (by omega)).2
    have hsb : ((m * 2).emod 256).toNat < 256 := by
      have h0 : 0 ≤ (m * 2).emod 256 := Int.emod_nonneg _ (by omega)
      have h1 : (m * 2).emod 256 < 256 := Int.emod_lt_of_pos _ (by omega)
      omega
    have hred : sleepFrame ((m * 2).emod 256).toNat 1 ((cfg 1).getD []) =
        bset (bset (bset ((cfg 1).getD []) 1 CMD_WRITE) 15 ((m * 2).emod 256).toNat)
          19 (checksum (bset (bset ((cfg 1).getD []) 1 CMD_WRITE) 15
            ((m * 2).emod 256).toNat)) := by
      simp [sleepFrame]
    rw [hred, bget_bset_ne (by omega), bget_bset_eq (by simp [length_bset]; omega)]
    omega

/-- A concrete complete read result: ten read-style fragments
`[0x13, 0x44, 0x0A, seq, 0, …]`, used by witnesses. -/
def cfgComplete : Nat → Option (List Nat) :=
  fun t => if t < 10 then some ([0x13, 0x44, 0x0A, t] ++ List.replicate 16 0)
    else none

/-- Witness for C10 at minutes = 1000 (not one of the documented values
0/5/10/15): the stored byte is 2000 mod 256 = 208. -/
theorem sleep_timer_no_validation_witness :
    (∀ s < 10, (cfgComplete s).isSome ∧ 20 ≤ ((cfgComplete s).getD []).length) ∧
    bget (((setSleepTimerPlan cfgComplete 1000).getD ([], [])).1.getD 1 []) 15 =
      ((1000 * 2 : Int).emod 256).toNat :=
  ⟨by decide, (sleep_timer_no_validation cfgComplete (by decide) 1000).2.2⟩

-- ── C1: apply-flag (fragment 0 byte 14) on queued writes ────────────────

/-- A concrete complete read result whose fragment 0 carries apply flag
0x01 (the state the device leaves after applying a config, per the in-repo
protocol doc). -/
def cfgApplied : Nat → Option (List Nat) :=
  fun t => if t < 10 then
    some [0x13, 0x44, 0x0A, t, 0, 0, 0, 0, 0, 0, 0, 0, 0, 0,
      if t = 0 then 1 else 0, 0, 0, 0, 0, 0]
  else none

/-- C1 (code bug): on a read config whose fragment 0 apply flag is 0x01,
`setEffect` and `applyPerKey` queue fragment 0 with byte 14 forced to
0x00, but `setSleepTimer` queues it with byte 14 still 0x01 — it never
clears the apply flag, contradicting the in-repo protocol doc ("byte 14
must be 0x00 when writing; writing 0x01 is a no-op"). -/
theorem sleep_timer_apply_flag_bug :
    bget ((cfgApplied 0).getD []) 14 = 0x01 ∧
    (setSleepTimerPlan cfgApplied 10).isSome = true ∧
    bget (((setSleepTimerPlan cfgApplied 10).getD ([], [])).1.getD 0 []) 14 = 0x01 ∧
    bget ((setEffectConfigFrames cfgApplied 1 {}).getD 0 []) 14 = 0x00 ∧
    bget ((perKeyConfigFrames cfgApplied).getD 0 []) 14 = 0x00 := by
  decide

-- ── C5: setSleepTimer(10) fragment-1 write frame ────────────────────────

/-- Counterexample to C5 as stated: on a successfully-read config whose
fragment 1 byte 15 is 0x00, the queued fragment-1 write frame differs
from the read fragment also at byte 1 (the command field, rewritten from
READ 0x44 to WRITE 0x04), which is neither byte 15 nor the checksum
byte 19. -/
theorem sleep_frame1_command_byte_changes :
    bget ((cfgComplete 1).getD []) 15 = 0x00 ∧
    bget ((cfgComplete 1).getD []) 1 = 0x44 ∧
    (setSleepTimerPlan cfgComplete 10).isSome = true ∧
    bget (((setSleepTimerPlan cfgComplete 10).getD ([], [])).1.getD 1 []) 1 = 0x04 ∧
    (0x04 : Nat) ≠ 0x44 ∧ (1 : Nat) ≠ 15 ∧ (1 : Nat) ≠ 19 := by
  decide

/-- C5 (amended): `setSleepTimer(10)` on a successfully-read config whose
fragment 1 byte 15 was 0x00 produces a fragment-1 write frame with byte 15
= 0x14 (minutes × 2), every other byte unchanged from the read fragment
except the command byte (rewritten to WRITE) and the recomputed checksum
byte. -/
theorem sleep_frame1_bytes (cfg : Nat → Option (List Nat))
    (h : ∀ s < 10, (cfg s).isSome ∧ 20 ≤ ((cfg s).getD []).length)
    (h15 : bget ((cfg 1).getD []) 15 = 0) :
    ∃ frames sv, setSleepTimerPlan cfg 10 = some (frames, sv) ∧
      bget (frames.getD 1 []) 15 = 0x14 ∧
      bget (frames.getD 1 []) 1 = CMD_WRITE ∧
      bget (frames.getD 1 []) 19 = checksum (frames.getD 1 []) ∧
      ∀ j, j ≠ 1 → j ≠ 15 → j ≠ 19 → bget (frames.getD 1 []) j = bget ((cfg 1).getD []) j := by
  have hg : gotCfg cfg := fun s hs => (h s hs).1
  have hlen : 20 ≤ ((cfg 1).getD []).length := (h 1 (by omega)).2
  have hplan : setSleepTimerPlan cfg 10 =
      some ((List.range 10).map
        (fun s => sleepFrame ((10 * 2 : Int).emod 256).toNat s ((cfg s).getD [])),
        saveFrame) := by
    simp [setSleepTimerPlan, hg]
  refine ⟨_, _, hplan, ?_⟩
  rw [getD_map_range (by omega)]
  have hsb : ((10 * 2 : Int).emod 256).toNat = 20 := by decide
  rw [hsb]
  set r := (cfg 1).getD [] with hr
  have hred : sleepFrame 20 1 r =
      bset (bset (bset r 1 CMD_WRITE) 15 20) 19
        (checksum (bset (bset r 1 CMD_WRITE) 15 20)) := by
    simp [sleepFrame]
  rw [hred]
  set f3 := bset (bset r 1 CMD_WRITE) 15 20 with hf3
  have hlf3 : f3.length = r.length := by simp [hf3, length_bset]
  refine ⟨?_, ?_, ?_, ?_⟩
  · rw [bget_bset_ne (by omega), hf3, bget_bset_eq (by simp [length_bset]; omega)]
  · rw [bget_bset_ne (by omega), hf3, bget_bset_ne (by omega),
      bget_bset_eq (by omega)]
    decide
  · rw [checksum_bset19, bget_bset_eq (by omega)]
    exact Nat.mod_eq_of_lt (checksum_lt f3)
  · intro j hj1 hj15 hj19
    rw [bget_bset_ne (fun hc => hj19 hc.symm), hf3,
      bget_bset_ne (fun hc => hj15 hc.symm), bget_bset_ne (fun hc => hj1 hc.symm)]

/-- Witness for the amended C5 at a concrete complete read result. -/
theorem sleep_frame1_bytes_witness :
    ((∀ s < 10, (cfgComplete s).isSome ∧ 20 ≤ ((cfgComplete s).getD []).length) ∧
      bget ((cfgComplete 1).getD []) 15 = 0) ∧
    (∃ frames sv, setSleepTimerPlan cfgComplete 10 = some (frames, sv) ∧
      bget (frames.getD 1 []) 15 = 0x14 ∧
      bget (frames.getD 1 []) 1 = CMD_WRITE ∧
      bget (frames.getD 1 []) 19 = checksum (frames.getD 1 []) ∧
      ∀ j, j ≠ 1 → j ≠ 15 → j ≠ 19 →
        bget (frames.getD 1 []) j = bget ((cfgComplete 1).getD []) j) :=
  ⟨⟨by decide, by decide⟩, sleep_frame1_bytes cfgComplete (by decide) (by decide)⟩

-- ── C4: behaviour on an incomplete read ─────────────────────────────────

/-- C4: on an incomplete read (some fragment missing), `setSleepTimer`
aborts with no queued frames at all, while `setEffect` and `applyPerKey`
proceed, building all 10 config write frames from the static template —
their output no longer depends on the partial read result, and every frame
is a freshly built WRITE/CONFIG frame. -/
theorem incomplete_read_behaviour (cfg : Nat → Option (List Nat))
    (h : ¬ gotCfg cfg) :
    (∀ m : Int, setSleepTimerPlan cfg m = none) ∧
    (∀ n o, setEffectConfigFrames cfg n o = setEffectConfigFrames (fun _ => none) n o ∧
      (setEffectConfigFrames cfg n o).length = 10 ∧
      ∀ s < 10, ∃ p, (setEffectConfigFrames cfg n o).getD s [] =
        buildFrame CMD_WRITE SUBCMD_CONFIG s p) ∧
    (perKeyConfigFrames cfg = perKeyConfigFrames (fun _ => none) ∧
      (perKeyConfigFrames cfg).length = 10 ∧
      ∀ s < 10, ∃ p, (perKeyConfigFrames cfg).getD s [] =
        buildFrame CMD_WRITE SUBCMD_CONFIG s p) := by
  have hnone : ¬ gotCfg (fun _ => none) := by
    intro hg
    simpa using hg 0 (by omega)
  refine ⟨fun m => by simp [setSleepTimerPlan, h], fun n o => ⟨?_, ?_, ?_⟩, ?_, ?_, ?_⟩
  · simp [setEffectConfigFrames, h, hnone]
  · simp [setEffectConfigFrames]
  · intro s hs
    have hding : (setEffectConfigFrames cfg n o).getD s [] = setEffectTmplFrame n o s := by
      rw [setEffectConfigFrames, getD_map_range hs]
      simp [h]
    exact ⟨_, by rw [hding]; rfl⟩
  · simp [perKeyConfigFrames, h, hnone]
  · simp [perKeyConfigFrames]
  · intro s hs
    have hding : (perKeyConfigFrames cfg).getD s [] = perKeyTmplFrame s := by
      rw [perKeyConfigFrames, getD_map_range hs]
      simp [h]
    exact ⟨_, by rw [hding]; rfl⟩

/-- A concrete incomplete read result: fragment 9 missing. -/
def cfgPartial : Nat → Option (List Nat) :=
  fun t => if t < 9 then some ([0x13, 0x44, 0x0A, t] ++ List.replicate 16 0)
    else none

/-- Witness for C4 at a concrete incomplete read result. -/
theorem incomplete_read_behaviour_witness :
    (¬ gotCfg cfgPartial) ∧
    ((∀ m : Int, setSleepTimerPlan cfgPartial m = none) ∧
    (∀ n o, setEffectConfigFrames cfgPartial n o =
        setEffectConfigFrames (fun _ => none) n o ∧
      (setEffectConfigFrames cfgPartial n o).length = 10 ∧
      ∀ s < 10, ∃ p, (setEffectConfigFrames cfgPartial n o).getD s [] =
        buildFrame CMD_WRITE SUBCMD_CONFIG s p) ∧
    (perKeyConfigFrames cfgPartial = perKeyConfigFrames (fun _ => none) ∧
      (perKeyConfigFrames cfgPartial).length = 10 ∧
      ∀ s < 10, ∃ p, (perKeyConfigFrames cfgPartial).getD s [] =
        buildFrame CMD_WRITE SUBCMD_CONFIG s p)) :=
  ⟨by decide, incomplete_read_behaviour cfgPartial (by decide)⟩

-- ── C7: out-of-range LED indices in the per-key map ─────────────────────

/-- The fold of lines 184–187 skips entries with out-of-range indices, so
the planes only depend on the in-range entries. -/
theorem foldl_addPlaneEntry_filter (entries : List (Int × Nat × Nat × Nat)) :
    ∀ acc, entries.foldl addPlaneEntry acc =
      (entries.filter fun e => decide (0 ≤ e.1 ∧ e.1 < 126)).foldl addPlaneEntry acc := by
  induction entries with
  | nil => intro acc; rfl
  | cons e es ih =>
    intro acc
    by_cases he : 0 ≤ e.1 ∧ e.1 < 126
    · simp only [List.filter_cons, List.foldl_cons, ih]
      rw [if_pos (by simpa using he), List.foldl_cons]
    · have hskip : addPlaneEntry acc e = acc := by simp [addPlaneEntry, he]
      simp only [List.filter_cons, List.foldl_cons, hskip, ih]
      rw [if_neg (by simpa using he)]

/-- Counterexample to C7 as stated: a map containing the out-of-range LED
index 126 is not rejected — `applyPerKey` proceeds, emitting the full
28-frame per-key sequence, identical to the one for the empty map (the
code has no rejection path at all; the out-of-range entry is silently
dropped by the bounds check of line 186). -/
theorem perkey_out_of_range_not_rejected :
    perKeyMapFrames [((126 : Int), 9, 9, 9)] = perKeyMapFrames [] ∧
    (perKeyMapFrames [((126 : Int), 9, 9, 9)]).length = 28 ∧
    applyPerKeyPlan cfgComplete [((126 : Int), 9, 9, 9)] =
      (perKeyConfigFrames cfgComplete, perKeyMapFrames [], saveFrame) := by
  decide

/-- C7 (amended): entries with LED index outside 0–125 are silently
dropped, not rejected: the per-key map frames equal those of the map
restricted to indices 0–125, and the phase still emits exactly 28
frames. -/
theorem perkey_out_of_range_dropped (entries : List (Int × Nat × Nat × Nat)) :
    perKeyMapFrames entries =
      perKeyMapFrames (entries.filter fun e => decide (0 ≤ e.1 ∧ e.1 < 126)) ∧
    (perKeyMapFrames entries).length = 28 := by
  constructor
  · have hpl : perKeyPlanes entries =
        perKeyPlanes (entries.filter fun e => decide (0 ≤ e.1 ∧ e.1 < 126)) :=
      foldl_addPlaneEntry_filter entries _
    rw [perKeyMapFrames, perKeyMapFrames, hpl]
  · simp [perKeyMapFrames, planeFrames]

-- ── C9: colorful nibble handling in setEffect (gotConfig path) ──────────

/-- Bounds of the effect parameter table locations for effects 1–18. -/
theorem effectTableLoc_bounds {n ts off : Nat} (hn : 1 ≤ n ∧ n ≤ 18)
    (ht : effectTableLoc n = (ts, off)) :
    4 ≤ ts ∧ ts ≤ 6 ∧ 5 ≤ off ∧ off + 1 ≤ 18 := by
  unfold effectTableLoc at ht
  split at ht
  · cases ht; omega
  · split at ht
    · cases ht; omega
    · split at ht
      · cases ht; omega
      · cases ht; omega

/-- The speed byte written by `setEffectGotFrame` at the effect's table
location, for any options with no explicit speed. -/
theorem setEffect_speed_byte (f0 : List Nat) (hlen : 20 ≤ f0.length)
    {n ts off : Nat} (ht : effectTableLoc n = (ts, off))
    (hts : ts ≠ 0) (hoff : 5 ≤ off ∧ off + 1 ≤ 18) (o : EffectOpts) :
    bget (setEffectGotFrame n o ts f0) (off + 1) =
      encodeSpeedByte (o.speed.getD (bget f0 (off + 1) / 16))
        (if o.colorful then true
         else o.colorRgb.isNone && (bget f0 (off + 1) % 16 == 7)) % 256 := by
  unfold setEffectGotFrame
  rw [ht]
  simp only [if_neg hts, if_pos rfl, if_true]
  cases hbr : o.brightness with
  | some b =>
    rw [bget_bset_ne (by omega)]
    have horig : bget (bset (bset f0 1 CMD_WRITE) off b) (off + 1) = bget f0 (off + 1) := by
      rw [bget_bset_ne (by omega), bget_bset_ne (by omega)]
    rw [horig]
    rw [bget_bset_eq (by simp [length_bset]; omega)]
    simp [decodeSpeedByte]
  | none =>
    rw [bget_bset_ne (by omega)]
    have horig : bget (bset f0 1 CMD_WRITE) (off + 1) = bget f0 (off + 1) := by
      rw [bget_bset_ne (by omega)]
    rw [horig]
    rw [bget_bset_eq (by simp [length_bset]; omega)]
    simp [decodeSpeedByte]

/-- C9: on the `gotConfig` path of `setEffect` for a table-backed effect
with no explicit speed: supplying a custom color with colorful=false
forces the low nibble of the rewritten speed byte to 0x0 (single-color)
while keeping the current speed in the high nibble, even if the read byte
had the colorful nibble 0x7; supplying colorful=true forces it to 0x7;
the read byte's colorful nibble is carried over only when neither a
custom color nor colorful is supplied. -/
theorem seteffect_colorful_nibble (cfg : Nat → Option (List Nat))
    (h : ∀ s < 10, (cfg s).isSome ∧ 20 ≤ ((cfg s).getD []).length)
    (hb : ∀ s < 10, ∀ b ∈ (cfg s).getD [], b < 256)
    (n ts off : Nat) (hn : 1 ≤ n ∧ n ≤ 18) (ht : effectTableLoc n = (ts, off))
    (rgb : Nat × Nat × Nat) (br : Option Nat) :
    bget ((setEffectConfigFrames cfg n ⟨some rgb, false, none, br⟩).getD ts []) (off + 1) =
      (bget ((cfg ts).getD []) (off + 1) / 16) * 16 ∧
    bget ((setEffectConfigFrames cfg n ⟨none, true, none, br⟩).getD ts []) (off + 1) =
      (bget ((cfg ts).getD []) (off + 1) / 16) * 16 + 7 ∧
    bget ((setEffectConfigFrames cfg n ⟨none, false, none, br⟩).getD ts []) (off + 1) =
      (bget ((cfg ts).getD []) (off + 1) / 16) * 16 +
        (if bget ((cfg ts).getD []) (off + 1) % 16 = 7 then 7 else 0) := by
  obtain ⟨hts4, hts6, hoff5, hoff18⟩ := effectTableLoc_bounds hn ht
  have hg : gotCfg cfg := fun s hs => (h s hs).1
  have hlen : 20 ≤ ((cfg ts).getD []).length := (h ts (by omega)).2
  have horiglt : bget ((cfg ts).getD []) (off + 1) < 256 :=
    bget_lt_256 (hb ts (by omega)) _
  have hget : ∀ o : EffectOpts, (setEffectConfigFrames cfg n o).getD ts [] =
      setEffectGotFrame n o ts ((cfg ts).getD []) := by
    intro o
    rw [setEffectConfigFrames, getD_map_range (by omega)]
    simp [hg]
  set orig := bget ((cfg ts).getD []) (off + 1) with horigdef
  refine ⟨?_, ?_, ?_⟩
  · rw [hget, setEffect_speed_byte _ hlen ht (by omega) ⟨hoff5, hoff18⟩]
    simp only [← horigdef]
    simp [encodeSpeedByte]
    omega
  · rw [hget, setEffect_speed_byte _ hlen ht (by omega) ⟨hoff5, hoff18⟩]
    simp only [← horigdef]
    simp [encodeSpeedByte]
    omega
  · rw [hget, setEffect_speed_byte _ hlen ht (by omega) ⟨hoff5, hoff18⟩]
    simp only [← horigdef]
    by_cases h7 : orig % 16 = 7
    · have hb7 : (orig % 16 == 7) = true := by simp [h7]
      simp [encodeSpeedByte, hb7, h7]
      omega
    · have hb7 : (orig % 16 == 7) = false := by simp [h7]
      simp [encodeSpeedByte, hb7, h7]
      omega

-- ── C2: read-modify-write idempotence of setEffect ──────────────────────

/-- The low nibble of a stored speed byte recovers the colorful flag that
was encoded into it. -/
theorem encode_mod_low (S : Nat) (fl : Bool) :
    ((encodeSpeedByte S fl % 256) % 16 == 7) = fl := by
  cases fl <;> simp [encodeSpeedByte] <;> omega

/-- Re-encoding a stored speed byte with the same flag and the same
(explicit or recovered) speed reproduces the stored byte. -/
theorem encode_restamp (sp : Option Nat) (s0 : Nat) (fl : Bool) :
    encodeSpeedByte (sp.getD (encodeSpeedByte (sp.getD s0) fl % 256 / 16)) fl % 256 =
      encodeSpeedByte (sp.getD s0) fl % 256 := by
  cases sp with
  | some v => rfl
  | none =>
    simp only [Option.getD_none]
    cases fl <;> simp [encodeSpeedByte] <;> omega

/-- The colorful flag recomputed from a byte that was just written by the
speed-byte update is the flag that was written. -/
theorem flag_stable (o : EffectOpts) (d : Bool) (s0 : Nat) :
    (if o.colorful then true else o.colorRgb.isNone &&
       ((encodeSpeedByte (o.speed.getD s0)
          (if o.colorful then true else o.colorRgb.isNone && d) % 256) % 16 == 7))
    = (if o.colorful then true else o.colorRgb.isNone && d) := by
  cases hc : o.colorful
  · cases hrgb : o.colorRgb.isNone
    · simp
    · simp [encode_mod_low]
  · simp

/-- Witness for C9 on a concrete read result, effect 3 (fragment 4,
offset 11), custom color (255,0,0), brightness 2. -/
theorem seteffect_colorful_nibble_witness :
    ((∀ s < 10, (cfgComplete s).isSome ∧ 20 ≤ ((cfgComplete s).getD []).length) ∧
     (∀ s < 10, ∀ b ∈ (cfgComplete s).getD [], b < 256) ∧
     (1 ≤ 3 ∧ 3 ≤ 18) ∧ effectTableLoc 3 = (4, 11)) ∧
    (bget ((setEffectConfigFrames cfgComplete 3
        ⟨some (255, 0, 0), false, none, some 2⟩).getD 4 []) (11 + 1) =
      (bget ((cfgComplete 4).getD []) (11 + 1) / 16) * 16 ∧
    bget ((setEffectConfigFrames cfgComplete 3
        ⟨none, true, none, some 2⟩).getD 4 []) (11 + 1) =
      (bget ((cfgComplete 4).getD []) (11 + 1) / 16) * 16 + 7 ∧
    bget ((setEffectConfigFrames cfgComplete 3
        ⟨none, false, none, some 2⟩).getD 4 []) (11 + 1) =
      (bget ((cfgComplete 4).getD []) (11 + 1) / 16) * 16 +
        (if bget ((cfgComplete 4).getD []) (11 + 1) % 16 = 7 then 7 else 0)) :=
  ⟨⟨by decide, by decide, by decide, by decide⟩,
    seteffect_colorful_nibble cfgComplete (by decide) (by decide) 3 4 11
      (by decide) (by decide) (255, 0, 0) (some 2)⟩

/-- A frame already produced by `setEffectGotFrame` is a fixed point of a
second application with the same parameters: every store writes the value
the frame already holds. -/
theorem setEffectGotFrame_fix {n ts off : Nat} (hn : 1 ≤ n ∧ n ≤ 18)
    (ht : effectTableLoc n = (ts, off)) (o : EffectOpts) (seq : Nat)
    (g : List Nat) (hlen : 20 ≤ g.length)
    (h1 : bget g 1 = CMD_WRITE)
    (h0 : seq = 0 → bget g 8 = 1 ∧ bget g 14 = 0 ∧ bget g 15 = n % 256 ∧
      bget g 17 = (if o.colorRgb.isSome || o.colorful then 0x01 else 0x03) % 256)
    (htgt : seq = ts →
      (∀ b, o.brightness = some b → bget g off = b % 256) ∧
      encodeSpeedByte (o.speed.getD (decodeSpeedByte (bget g (off + 1))).1)
        (if o.colorful then true
         else o.colorRgb.isNone && (decodeSpeedByte (bget g (off + 1))).2) % 256
        = bget g (off + 1))
    (h19 : bget g 19 = checksum g) :
    setEffectGotFrame n o seq g = g := by
  obtain ⟨hts4, hts6, hoff5, hoff18⟩ := effectTableLoc_bounds hn ht
  have hck : bset g 19 (checksum g) = g :=
    bset_eq_self (by omega) (by rw [h19, Nat.mod_eq_of_lt (checksum_lt g)])
  have hf1 : bset g 1 CMD_WRITE = g := bset_eq_self (by omega) (by rw [h1]; decide)
  simp only [setEffectGotFrame]
  rw [ht]
  simp only
  rw [hf1]
  by_cases hs0 : seq = 0
  · obtain ⟨h8, h14, h15, h17⟩ := h0 hs0
    have hc8 : bset g 8 0x01 = g := bset_eq_self (by omega) (by rw [h8])
    have hst : ¬ seq = (ts, off).1 := by simp only; omega
    rw [if_pos hs0, hc8]
    have hc14 : bset g 14 0x00 = g := bset_eq_self (by omega) (by rw [h14])
    rw [hc14]
    have hc15 : bset g 15 n = g := bset_eq_self (by omega) h15
    rw [hc15]
    have hc17 : bset g 17 (if o.colorRgb.isSome || o.colorful then 0x01 else 0x03) = g :=
      bset_eq_self (by omega) h17
    rw [hc17, if_neg hst, hck]
  · rw [if_neg hs0]
    by_cases hst : seq = (ts, off).1
    · obtain ⟨hbr, hspd⟩ := htgt (by simpa using hst)
      rw [if_pos hst]
      have hcs : bset g (off + 1)
          (encodeSpeedByte (o.speed.getD (decodeSpeedByte (bget g (off + 1))).1)
            (if o.colorful = true then true
             else o.colorRgb.isNone && (decodeSpeedByte (bget g (off + 1))).2)) = g :=
        bset_eq_self (by omega) hspd.symm
      split
      next b hb =>
        have hcb : bset g off b = g := bset_eq_self (by omega) (hbr b hb)
        rw [hcb, hcs, hck]
      next hb =>
        rw [hcs, hck]
    · rw [if_neg hst, hck]

/-- Re-applying `setEffectGotFrame` with the same parameters to a frame it
produced reproduces that frame byte for byte. -/
theorem setEffectGotFrame_idem {n ts off : Nat} (hn : 1 ≤ n ∧ n ≤ 18)
    (ht : effectTableLoc n = (ts, off)) (o : EffectOpts) (seq : Nat)
    (f0 : List Nat) (hlen : 20 ≤ f0.length) :
    setEffectGotFrame n o seq (setEffectGotFrame n o seq f0) =
      setEffectGotFrame n o seq f0 := by
  obtain ⟨hts4, hts6, hoff5, hoff18⟩ := effectTableLoc_bounds hn ht
  have hglen : (setEffectGotFrame n o seq f0).length = f0.length :=
    length_setEffectGotFrame ..
  by_cases hs0 : seq = 0
  · have hst : ¬ seq = (ts, off).1 := by simp only; omega
    have hred : setEffectGotFrame n o seq f0 =
        bset (bset (bset (bset (bset (bset f0 1 CMD_WRITE) 8 0x01) 14 0x00) 15 n) 17
          (if o.colorRgb.isSome || o.colorful then 0x01 else 0x03)) 19
          (checksum (bset (bset (bset (bset (bset f0 1 CMD_WRITE) 8 0x01) 14 0x00) 15 n) 17
            (if o.colorRgb.isSome || o.colorful then 0x01 else 0x03))) := by
      simp only [setEffectGotFrame]
      rw [ht]
      simp only
      rw [if_pos hs0, if_neg hst]
    refine setEffectGotFrame_fix hn ht o seq _ (by omega) ?_ ?_ ?_ ?_
    · rw [hred, bget_bset_ne (by omega), bget_bset_ne (by omega),
        bget_bset_ne (by omega), bget_bset_ne (by omega), bget_bset_ne (by omega),
        bget_bset_eq (by omega)]
      decide
    · intro hseq0
      refine ⟨?_, ?_, ?_, ?_⟩
      · rw [hred, bget_bset_ne (by omega), bget_bset_ne (by omega),
          bget_bset_ne (by omega), bget_bset_ne (by omega),
          bget_bset_eq (by simp [length_bset]; omega)]
      · rw [hred, bget_bset_ne (by omega), bget_bset_ne (by omega),
          bget_bset_ne (by omega), bget_bset_eq (by simp [length_bset]; omega)]
      · rw [hred, bget_bset_ne (by omega), bget_bset_ne (by omega),
          bget_bset_eq (by simp [length_bset]; omega)]
      · rw [hred, bget_bset_ne (by omega),
          bget_bset_eq (by simp [length_bset]; omega)]
    · intro hseq
      omega
    · rw [hred, bget_bset_eq (by simp [length_bset]; omega), checksum_bset19]
      exact Nat.mod_eq_of_lt (checksum_lt _)
  · by_cases hst : seq = ts
    · have hstp : seq = (ts, off).1 := by simpa using hst
      rcases hb : o.brightness with _ | b
      · have hred : setEffectGotFrame n o seq f0 =
            bset (bset (bset f0 1 CMD_WRITE) (off + 1) (encodeSpeedByte (o.speed.getD (decodeSpeedByte (bget (bset f0 1 CMD_WRITE) (off + 1))).1) (if o.colorful then true else o.colorRgb.isNone && (decodeSpeedByte (bget (bset f0 1 CMD_WRITE) (off + 1))).2))) 19 (checksum (bset (bset f0 1 CMD_WRITE) (off + 1) (encodeSpeedByte (o.speed.getD (decodeSpeedByte (bget (bset f0 1 CMD_WRITE) (off + 1))).1) (if o.colorful then true else o.colorRgb.isNone && (decodeSpeedByte (bget (bset f0 1 CMD_WRITE) (off + 1))).2)))) := by
          simp only [setEffectGotFrame, hb]
          rw [ht]
          simp only
          rw [if_neg hs0, if_pos hstp]
        have horig : bget (bset f0 1 CMD_WRITE) (off + 1) = bget f0 (off + 1) := by
          rw [bget_bset_ne (by omega)]
        refine setEffectGotFrame_fix hn ht o seq _ (by omega) ?_ ?_ ?_ ?_
        · rw [hred, bget_bset_ne (by omega), bget_bset_ne (by omega),
            bget_bset_eq (by omega)]
          decide
        · intro hseq0
          omega
        · intro hseq
          constructor
          · intro b hbb
            rw [hb] at hbb
            cases hbb
          · rw [hred, bget_bset_ne (by omega),
              bget_bset_eq (by simp [length_bset]; omega), horig]
            simp only [decodeSpeedByte]
            rw [flag_stable]
            exact encode_restamp ..
        · rw [hred, bget_bset_eq (by simp [length_bset]; omega), checksum_bset19]
          exact Nat.mod_eq_of_lt (checksum_lt _)
      · have hred : setEffectGotFrame n o seq f0 =
            bset (bset (bset (bset f0 1 CMD_WRITE) off b) (off + 1) (encodeSpeedByte (o.speed.getD (decodeSpeedByte (bget (bset (bset f0 1 CMD_WRITE) off b) (off + 1))).1) (if o.colorful then true else o.colorRgb.isNone && (decodeSpeedByte (bget (bset (bset f0 1 CMD_WRITE) off b) (off + 1))).2))) 19 (checksum (bset (bset (bset f0 1 CMD_WRITE) off b) (off + 1) (encodeSpeedByte (o.speed.getD (decodeSpeedByte (bget (bset (bset f0 1 CMD_WRITE) off b) (off + 1))).1) (if o.colorful then true else o.colorRgb.isNone && (decodeSpeedByte (bget (bset (bset f0 1 CMD_WRITE) off b) (off + 1))).2)))) := by
          simp only [setEffectGotFrame, hb]
          rw [ht]
          simp only
          rw [if_neg hs0, if_pos hstp]
        have horig : bget (bset (bset f0 1 CMD_WRITE) off b) (off + 1) = bget f0 (off + 1) := by
          rw [bget_bset_ne (by omega), bget_bset_ne (by omega)]
        refine setEffectGotFrame_fix hn ht o seq _ (by omega) ?_ ?_ ?_ ?_
        · rw [hred, bget_bset_ne (by omega), bget_bset_ne (by omega),
            bget_bset_ne (by omega), bget_bset_eq (by omega)]
          decide
        · intro hseq0
          omega
        · intro hseq
          constructor
          · intro b' hbb
            rw [hb] at hbb
            cases hbb
            rw [hred, bget_bset_ne (by omega), bget_bset_ne (by omega),
              bget_bset_eq (by simp [length_bset]; omega)]
          · rw [hred, bget_bset_ne (by omega),
              bget_bset_eq (by simp [length_bset]; omega), horig]
            simp only [decodeSpeedByte]
            rw [flag_stable]
            exact encode_restamp ..
        · rw [hred, bget_bset_eq (by simp [length_bset]; omega), checksum_bset19]
          exact Nat.mod_eq_of_lt (checksum_lt _)
    · have hstp : ¬ seq = (ts, off).1 := by simpa using hst
      have hred : setEffectGotFrame n o seq f0 =
          bset (bset f0 1 CMD_WRITE) 19 (checksum (bset f0 1 CMD_WRITE)) := by
        simp only [setEffectGotFrame]
        rw [ht]
        simp only
        rw [if_neg hs0, if_neg hstp]
      refine setEffectGotFrame_fix hn ht o seq _ (by omega) ?_ ?_ ?_ ?_
      · rw [hred, bget_bset_ne (by omega), bget_bset_eq (by omega)]
        decide
      · intro hseq0
        omega
      · intro hseq
        omega
      · rw [hred, bget_bset_eq (by simp [length_bset]; omega), checksum_bset19]
        exact Nat.mod_eq_of_lt (checksum_lt _)

/-- C2: read-modify-write idempotence.  Applying `setEffect`'s phase 2 to
a freshly-read 10-fragment config and then re-applying it with the same
parameters to the produced write frames (simulated echo as the next read
result) yields write frames that agree byte for byte with the first
application's frames at every offset other than the command field. -/
theorem effect_write_idempotent (cfg : Nat → Option (List Nat))
    (h : ∀ s < 10, (cfg s).isSome ∧ 20 ≤ ((cfg s).getD []).length)
    (n : Nat) (hn : 1 ≤ n ∧ n ≤ 18) (o : EffectOpts) :
    ∀ s j, j ≠ 1 →
      bget ((setEffectConfigFrames
        (fun t => (setEffectConfigFrames cfg n o)[t]?) n o).getD s []) j =
      bget ((setEffectConfigFrames cfg n o).getD s []) j := by
  rcases hloc : effectTableLoc n with ⟨ts, off⟩
  have hg : gotCfg cfg := fun s hs => (h s hs).1
  have hF1 : setEffectConfigFrames cfg n o =
      (List.range 10).map (fun s => setEffectGotFrame n o s ((cfg s).getD [])) := by
    simp [setEffectConfigFrames, hg]
  have hg2 : gotCfg (fun t => (setEffectConfigFrames cfg n o)[t]?) := by
    intro s hs
    have hlt : s < (setEffectConfigFrames cfg n o).length := by
      rw [hF1]
      simpa using hs
    simp only
    rw [List.getElem?_eq_getElem hlt]
    rfl
  have hcfg2 : ∀ s < 10, ((setEffectConfigFrames cfg n o)[s]?).getD [] =
      setEffectGotFrame n o s ((cfg s).getD []) := by
    intro s hs
    rw [hF1, List.getElem?_map, List.getElem?_range hs]
    rfl
  have hF2 : setEffectConfigFrames
      (fun t => (setEffectConfigFrames cfg n o)[t]?) n o =
      setEffectConfigFrames cfg n o := by
    apply List.ext_getElem?
    intro i
    rcases Nat.lt_or_ge i 10 with hi | hi
    · have hL : (setEffectConfigFrames
          (fun t => (setEffectConfigFrames cfg n o)[t]?) n o)[i]? =
          some (setEffectGotFrame n o i
            (((setEffectConfigFrames cfg n o)[i]?).getD [])) := by
        rw [setEffectConfigFrames, List.getElem?_map, List.getElem?_range hi]
        simp [hg2]
      have hR : (setEffectConfigFrames cfg n o)[i]? =
          some (setEffectGotFrame n o i ((cfg i).getD [])) := by
        rw [hF1, List.getElem?_map, List.getElem?_range hi]
        rfl
      rw [hL, hR]
      simp only [Option.getD_some]
      rw [setEffectGotFrame_idem hn hloc o i _ ((h i hi).2)]
    · have hL : (setEffectConfigFrames
          (fun t => (setEffectConfigFrames cfg n o)[t]?) n o)[i]? = none := by
        apply List.getElem?_eq_none
        simp only [setEffectConfigFrames, List.length_map, List.length_range]
        omega
      have hR : (setEffectConfigFrames cfg n o)[i]? = none := by
        apply List.getElem?_eq_none
        simp only [setEffectConfigFrames, List.length_map, List.length_range]
        omega
      rw [hL, hR]
  intro s j hj
  rw [hF2]

/-- Witness for C2 on a concrete complete read result, effect 2 with
custom color, explicit speed 3 and brightness 1. -/
theorem effect_write_idempotent_witness :
    ((∀ s < 10, (cfgComplete s).isSome ∧ 20 ≤ ((cfgComplete s).getD []).length) ∧
      (1 ≤ 2 ∧ 2 ≤ 18)) ∧
    (∀ s j, j ≠ 1 →
      bget ((setEffectConfigFrames
        (fun t => (setEffectConfigFrames cfgComplete 2
          ⟨some (10, 20, 30), false, some 3, some 1⟩)[t]?) 2
          ⟨some (10, 20, 30), false, some 3, some 1⟩).getD s []) j =
      bget ((setEffectConfigFrames cfgComplete 2
        ⟨some (10, 20, 30), false, some 3, some 1⟩).getD s []) j) :=
  ⟨⟨by decide, by decide⟩,
    effect_write_idempotent cfgComplete (by decide) 2 (by decide)
      ⟨some (10, 20, 30), false, some 3, some 1⟩⟩

-- ── C3: readConfig receive-phase characterisation ───────────────────────

/-- The amended claim's keep-predicate, written from the claim's words: a
fragment is kept when it is at least 20 bytes long, its report-id byte is
0x13, its command byte is READ (0x44), its subcommand byte is CONFIG
(0x0A) and its sequence byte is in 0–9. -/
def specKeep (r : List Nat) : Bool :=
  decide (20 ≤ r.length) && (bget r 0 == 0x13) && (bget r 1 == 0x44) &&
    (bget r 2 == 0x0A) && decide (bget r 3 ≤ 9)

/-- The receive results actually processed, per the claim's words: at most
12 receive attempts, stopping at the first timeout. -/
def specProcessed (reports : List (Option (List Nat))) : List (List Nat) :=
  ((reports.take 12).takeWhile Option.isSome).reduceOption

/-- Slot `j` per the claim's words: the last processed kept fragment whose
sequence field equals `j` (duplicates overwrite earlier fragments). -/
def specSlot (reports : List (Option (List Nat))) (j : Nat) : Option (List Nat) :=
  (specProcessed reports).reverse.find? (fun r => specKeep r && (bget r 3 == j))

theorem specKeep_iff (r : List Nat) (j : Nat) :
    (specKeep r && (bget r 3 == j)) = true ↔
      ((keepReport r && decide (bget r 3 < 10)) = true ∧ j = bget r 3) := by
  simp only [specKeep, keepReport, REPORT_ID, CMD_READ, SUBCMD_CONFIG,
    Bool.and_eq_true, decide_eq_true_eq, beq_iff_eq]
  constructor
  · rintro ⟨⟨⟨⟨⟨hl, h0⟩, h1⟩, h2⟩, h3⟩, hj⟩
    exact ⟨⟨⟨⟨⟨hl, h0⟩, h1⟩, h2⟩, by omega⟩, hj.symm⟩
  · rintro ⟨⟨⟨⟨⟨hl, h0⟩, h1⟩, h2⟩, h3⟩, hj⟩
    exact ⟨⟨⟨⟨⟨hl, h0⟩, h1⟩, h2⟩, by omega⟩, hj.symm⟩

/-- The receive loop computed with any fuel equals last-kept-wins over the
processed prefix. -/
theorem collectConfig_eq (fuel : Nat) :
    ∀ (reports : List (Option (List Nat))) (acc : Nat → Option (List Nat)) (j : Nat),
      collectConfig fuel reports acc j =
        match (((reports.take fuel).takeWhile Option.isSome).reduceOption).reverse.find?
            (fun r => specKeep r && (bget r 3 == j)) with
        | some r => some r
        | none => acc j := by
  induction fuel with
  | zero =>
    intro reports acc j
    simp [collectConfig]
  | succ k ih =>
    intro reports acc j
    cases reports with
    | nil => simp [collectConfig]
    | cons hd tl =>
      cases hd with
      | none => simp [collectConfig]
      | some r =>
        rw [collectConfig, ih tl _ j]
        have hre : (((some r :: tl).take (k + 1)).takeWhile Option.isSome).reduceOption
            = r :: ((tl.take k).takeWhile Option.isSome).reduceOption := by
          simp [List.take_succ_cons, List.takeWhile_cons]
        rw [hre, List.reverse_cons, List.find?_append]
        cases hfind : (((tl.take k).takeWhile Option.isSome).reduceOption).reverse.find?
            (fun x => specKeep x && (bget x 3 == j)) with
        | some x => simp [hfind]
        | none =>
          simp only [hfind, Option.none_or]
          by_cases hp : (specKeep r && (bget r 3 == j)) = true
          · obtain ⟨hstore, hj⟩ := (specKeep_iff r j).mp hp
            simp only [List.find?_cons, hp, List.find?_nil]
            rw [if_pos hstore]
            simp [hj]
          · have hp' : (specKeep r && (bget r 3 == j)) = false :=
              Bool.not_eq_true _ ▸ (by simpa using hp)
            simp only [List.find?_cons, hp', List.find?_nil]
            by_cases hstore : (keepReport r && decide (bget r 3 < 10)) = true
            · rw [if_pos hstore]
              have hj : ¬ j = bget r 3 := fun hj =>
                hp ((specKeep_iff r j).mpr ⟨hstore, hj⟩)
              simp [hj]
            · rw [if_neg (by simpa using hstore)]

/-- C3 (amended): `readConfig` sends one READ/CONFIRM frame with sequence
0 and an all-zero payload; over at most 12 receive attempts (stopping at
the first timeout) it keeps exactly those fragments at least 20 bytes long
whose report-id byte is 0x13, command byte is READ (0x44) and subcommand
byte is CONFIG (0x0A), storing each under its sequence field (0–9,
out-of-range dropped, duplicates overwrite); the result counts as
incomplete exactly when fewer than 10 slots are filled. -/
theorem read_config_spec :
    readConfigSent =
      [0x13, 0x44, 0x01, 0, 0, 0, 0, 0, 0, 0, 0, 0, 0, 0, 0, 0, 0, 0, 0, 0x58] ∧
    (∀ reports j, readConfigResult reports j = specSlot reports j) ∧
    (∀ reports, (¬ gotCfg (readConfigResult reports)) ↔
      ((List.range 10).filter
        (fun j => (readConfigResult reports j).isSome)).length < 10) := by
  refine ⟨by decide, ?_, ?_⟩
  · intro reports j
    rw [readConfigResult, collectConfig_eq]
    rw [specSlot, specProcessed]
    cases (((reports.take 12).takeWhile Option.isSome).reduceOption).reverse.find?
        (fun r => specKeep r && (bget r 3 == j)) with
    | some x => rfl
    | none => rfl
  · intro reports
    have hc : ((List.range 10).filter
        (fun j => (readConfigResult reports j).isSome)).length =
        (List.range 10).countP (fun j => (readConfigResult reports j).isSome) :=
      (List.countP_eq_length_filter _ _).symm
    have hle : (List.range 10).countP
        (fun j => (readConfigResult reports j).isSome) ≤ 10 := by
      have h1 := List.countP_le_length
        (p := fun j => (readConfigResult reports j).isSome) (l := List.range 10)
      simpa using h1
    have hiff := List.countP_eq_length
      (l := List.range 10) (p := fun j => (readConfigResult reports j).isSome)
    simp only [List.length_range, List.mem_range] at hiff
    rw [hc]
    constructor
    · intro hng
      rcases Nat.lt_or_ge ((List.range 10).countP
          (fun j => (readConfigResult reports j).isSome)) 10 with hlt | hge
      · exact hlt
      · exact absurd (fun s hs => hiff.mp (by omega) s hs) hng
    · intro hlt hgot
      exact absurd (hiff.mpr (fun a ha => hgot a ha)) (by omega)

/-- Counterexample to C3 as stated: two inbound reports whose command byte
is READ (0x44) and subcommand byte is CONFIG (0x0A) with in-range
sequences — one 19 bytes long, one with report-id byte 0x12 — are both
dropped by `readConfig`, so "keeping exactly those fragments whose command
byte is READ and subcommand byte is CONFIG" is false: the code also
requires length ≥ 20 and report-id 0x13. -/
theorem read_config_counterexample :
    bget ([0x13, 0x44, 0x0A, 0] ++ List.replicate 15 0) 1 = 0x44 ∧
    bget ([0x13, 0x44, 0x0A, 0] ++ List.replicate 15 0) 2 = 0x0A ∧
    bget ([0x13, 0x44, 0x0A, 0] ++ List.replicate 15 0) 3 = 0 ∧
    ([0x13, 0x44, 0x0A, 0] ++ List.replicate 15 0 : List Nat).length = 19 ∧
    bget ([0x12, 0x44, 0x0A, 1] ++ List.replicate 16 0) 1 = 0x44 ∧
    bget ([0x12, 0x44, 0x0A, 1] ++ List.replicate 16 0) 2 = 0x0A ∧
    bget ([0x12, 0x44, 0x0A, 1] ++ List.replicate 16 0) 3 = 1 ∧
    readConfigResult [some ([0x13, 0x44, 0x0A, 0] ++ List.replicate 15 0),
      some ([0x12, 0x44, 0x0A, 1] ++ List.replicate 16 0)] 0 = none ∧
    readConfigResult [some ([0x13, 0x44, 0x0A, 0] ++ List.replicate 15 0),
      some ([0x12, 0x44, 0x0A, 1] ++ List.replicate 16 0)] 1 = none := by
  decide

-- ── C6: per-key frame layout and decode round trip ──────────────────────

theorem getD_map_range_nat {g : Nat → Nat} {i n : Nat} (h : i < n) (d : Nat) :
    ((List.range n).map g).getD i d = g i := by
  simp [List.getD_eq_getElem?_getD, List.getElem?_map, List.getElem?_range h]

theorem getD_append_left {A B : List (List Nat)} {i : Nat} (h : i < A.length) :
    (A ++ B).getD i [] = A.getD i [] := by
  rw [List.getD_eq_getElem?_getD, List.getElem?_append_left h,
    ← List.getD_eq_getElem?_getD]

theorem getD_append_right {A B : List (List Nat)} {i : Nat} (h : A.length ≤ i) :
    (A ++ B).getD i [] = B.getD (i - A.length) [] := by
  rw [List.getD_eq_getElem?_getD, List.getElem?_append_right h,
    ← List.getD_eq_getElem?_getD]

theorem lookup_eq_none : ∀ {entries : List (Int × Nat × Nat × Nat)} {k : Int},
    (∀ e ∈ entries, e.1 ≠ k) → entries.lookup k = none := by
  intro entries
  induction entries with
  | nil => intro k _; rfl
  | cons e es ih =>
    intro k h
    rcases e with ⟨ek, ev⟩
    have hne : (k == ek) = false := by
      have h1 := h (ek, ev) (List.mem_cons_self ..)
      simp only [ne_eq] at h1
      simp only [beq_eq_false_iff_ne, ne_eq]
      omega
    rw [List.lookup_cons]
    simp only [hne]
    exact ih (fun e he => h e (List.mem_cons_of_mem _ he))

theorem lookup_mem : ∀ {entries : List (Int × Nat × Nat × Nat)} {k : Int}
    {c : Nat × Nat × Nat},
    entries.lookup k = some c → ∃ e ∈ entries, e.2 = c := by
  intro entries
  induction entries with
  | nil => intro k c h; cases h
  | cons e es ih =>
    intro k c h
    rcases e with ⟨ek, ev⟩
    rw [List.lookup_cons] at h
    by_cases hk : (k == ek) = true
    · simp only [hk] at h
      exact ⟨(ek, ev), List.mem_cons_self .., by injection h⟩
    · have hk' : (k == ek) = false := by simpa using hk
      simp only [hk'] at h
      obtain ⟨e', hm, he⟩ := ih h
      exact ⟨e', List.mem_cons_of_mem _ hm, he⟩

/-- The value of the three color planes at an in-range LED index after
the entry fold: last-write-wins, which under distinct keys is the map's
entry (modulo byte truncation), or the accumulator's value when the index
is absent. -/
theorem foldl_planes_at (k : Nat) (hk : k < 126) :
    ∀ (entries : List (Int × Nat × Nat × Nat)),
      entries.Pairwise (fun a b => a.1 ≠ b.1) →
      ∀ acc : (Nat → Nat) × (Nat → Nat) × (Nat → Nat),
      (((entries.foldl addPlaneEntry acc).1 k,
        (entries.foldl addPlaneEntry acc).2.1 k,
        (entries.foldl addPlaneEntry acc).2.2 k) : Nat × Nat × Nat) =
        ((entries.lookup (k : Int)).map
          (fun c => (c.1 % 256, c.2.1 % 256, c.2.2 % 256))).getD
          (acc.1 k, acc.2.1 k, acc.2.2 k) := by
  intro entries
  induction entries with
  | nil => intro _ acc; rfl
  | cons e es ih =>
    intro hdist acc
    rw [List.pairwise_cons] at hdist
    obtain ⟨hhead, htail⟩ := hdist
    rcases e with ⟨ek, ev⟩
    rw [List.foldl_cons, ih htail (addPlaneEntry acc (ek, ev))]
    by_cases hek : ek = (k : Int)
    · have hnone : es.lookup (k : Int) = none := by
        apply lookup_eq_none
        intro b hb hbk
        exact hhead b hb (by rw [hek, ← hbk])
      have hlk : (((ek, ev) :: es).lookup (k : Int)) = some ev := by
        rw [List.lookup_cons]
        have : ((k : Int) == ek) = true := by
          simp only [beq_iff_eq]
          omega
        simp only [this]
      rw [hlk, hnone]
      have hrange : 0 ≤ ek ∧ ek < 126 := by omega
      have hkt : ek.toNat = k := by omega
      simp [addPlaneEntry, hrange, hkt]
    · have hlk : (((ek, ev) :: es).lookup (k : Int)) = es.lookup (k : Int) := by
        rw [List.lookup_cons]
        have : ((k : Int) == ek) = false := by
          simp only [beq_eq_false_iff_ne, ne_eq]
          omega
        simp only [this]
      rw [hlk]
      cases hlu : es.lookup (k : Int) with
      | some c => rfl
      | none =>
        by_cases hrange : 0 ≤ ek ∧ ek < 126
        · have hknt : ¬ k = ek.toNat := by omega
          simp [addPlaneEntry, hrange, hknt]
        · simp [addPlaneEntry, hrange]

theorem length_planeFrames (base : Nat) (pl : Nat → Nat) :
    (planeFrames base pl).length = 9 := by
  simp [planeFrames]

theorem planeFrames_getD {base s : Nat} (pl : Nat → Nat) (hs : s < 9) :
    (planeFrames base pl).getD s [] =
      buildFrame CMD_PERKEY SUBCMD_PERKEY (base + s)
        (0x0e :: ((List.range 14).map fun j => pl (s * 14 + j))) := by
  rw [planeFrames, getD_map_range hs]

theorem perKeyMapFrames_getD_R (entries : List (Int × Nat × Nat × Nat))
    {s : Nat} (hs : s < 9) :
    (perKeyMapFrames entries).getD s [] =
      buildFrame CMD_PERKEY SUBCMD_PERKEY s
        (0x0e :: ((List.range 14).map fun j => (perKeyPlanes entries).1 (s * 14 + j))) := by
  rw [perKeyMapFrames]
  rw [getD_append_left (by simp [length_planeFrames]; try omega)]
  rw [getD_append_left (by simp [length_planeFrames]; try omega)]
  rw [getD_append_left (by simp [length_planeFrames]; try omega)]
  rw [planeFrames_getD _ hs]
  simp

theorem perKeyMapFrames_getD_G (entries : List (Int × Nat × Nat × Nat))
    {s : Nat} (hs : s < 9) :
    (perKeyMapFrames entries).getD (9 + s) [] =
      buildFrame CMD_PERKEY SUBCMD_PERKEY (9 + s)
        (0x0e :: ((List.range 14).map fun j => (perKeyPlanes entries).2.1 (s * 14 + j))) := by
  rw [perKeyMapFrames]
  rw [getD_append_left (by simp [length_planeFrames]; try omega)]
  rw [getD_append_left (by simp [length_planeFrames]; try omega)]
  rw [getD_append_right (by simp [length_planeFrames]; try omega)]
  rw [length_planeFrames]
  rw [show 9 + s - 9 = s from by omega]
  rw [planeFrames_getD _ hs]

theorem perKeyMapFrames_getD_B (entries : List (Int × Nat × Nat × Nat))
    {s : Nat} (hs : s < 9) :
    (perKeyMapFrames entries).getD (18 + s) [] =
      buildFrame CMD_PERKEY SUBCMD_PERKEY (18 + s)
        (0x0e :: ((List.range 14).map fun j => (perKeyPlanes entries).2.2 (s * 14 + j))) := by
  rw [perKeyMapFrames]
  rw [getD_append_left (by simp [length_planeFrames]; try omega)]
  rw [getD_append_right (by simp [length_planeFrames]; try omega)]
  rw [show (planeFrames 0 (perKeyPlanes entries).1 ++
      planeFrames 9 (perKeyPlanes entries).2.1).length = 18 from by
    simp [length_planeFrames]]
  rw [show 18 + s - 18 = s from by omega]
  rw [planeFrames_getD _ hs]

theorem perKeyMapFrames_getD_trailer (entries : List (Int × Nat × Nat × Nat)) :
    (perKeyMapFrames entries).getD 27 [] = perKeyTrailerFrame := by
  rw [perKeyMapFrames]
  rw [getD_append_right (by simp [length_planeFrames])]
  rw [show (planeFrames 0 (perKeyPlanes entries).1 ++
      planeFrames 9 (perKeyPlanes entries).2.1 ++
      planeFrames 18 (perKeyPlanes entries).2.2).length = 27 from by
    simp [length_planeFrames]]
  rfl

theorem bget_planeFrame_value (q : Nat) (vals : Nat → Nat) {j : Nat} (hj : j < 14) :
    bget (buildFrame CMD_PERKEY SUBCMD_PERKEY q
      (0x0e :: ((List.range 14).map vals))) (5 + j) = vals j % 256 := by
  have h15 : (0x0e :: ((List.range 14).map vals) : List Nat).length = 15 := by simp
  have hb := bget_buildFrame_payload CMD_PERKEY SUBCMD_PERKEY q h15
    (show 1 + j < 15 by omega)
  rw [show 5 + j = 4 + (1 + j) from by omega, hb,
    show (1 + j) = j + 1 from by omega, List.getD_cons_succ,
    getD_map_range_nat hj]

theorem bget_planeFrame_marker (q : Nat) (vals : Nat → Nat) :
    bget (buildFrame CMD_PERKEY SUBCMD_PERKEY q
      (0x0e :: ((List.range 14).map vals))) 4 = 0x0e := by
  have h15 : (0x0e :: ((List.range 14).map vals) : List Nat).length = 15 := by simp
  have hb := bget_buildFrame_payload CMD_PERKEY SUBCMD_PERKEY q h15
    (show (0 : Nat) < 15 by omega)
  simpa using hb

/-- C6: over any per-key color map (distinct LED indices, byte-sized
channel values), the per-key phase emits exactly 28 frames: global
sequence numbers 0–27, the 27 data frames carry the marker byte 0x0e at
payload offset 0, frame 27 is the fixed trailer, and reading the three
planes back — for LED index `idx`, payload byte `1 + idx mod 14` of
fragment `idx / 14` of each plane — reproduces the map exactly at all 126
LED indices (zero for unset indices). -/
theorem perkey_frames_decode (entries : List (Int × Nat × Nat × Nat))
    (hdist : entries.Pairwise (fun a b => a.1 ≠ b.1))
    (hval : ∀ e ∈ entries, e.2.1 < 256 ∧ e.2.2.1 < 256 ∧ e.2.2.2 < 256) :
    (perKeyMapFrames entries).length = 28 ∧
    (∀ k, k < 28 → bget ((perKeyMapFrames entries).getD k []) 3 = k) ∧
    (∀ k, k < 27 → bget ((perKeyMapFrames entries).getD k []) 4 = 0x0e) ∧
    (perKeyMapFrames entries).getD 27 [] =
      [0x13, 0x02, 0x1C, 27, 0x06, 0, 0, 0x5a, 0xa5, 0, 0, 0, 0, 0, 0, 0, 0, 0, 0, 0x51] ∧
    (∀ idx, idx < 126 →
      (bget ((perKeyMapFrames entries).getD (idx / 14) []) (5 + idx % 14),
       bget ((perKeyMapFrames entries).getD (9 + idx / 14) []) (5 + idx % 14),
       bget ((perKeyMapFrames entries).getD (18 + idx / 14) []) (5 + idx % 14)) =
      ((entries.lookup (idx : Int)).map (fun c => (c.1, c.2.1, c.2.2))).getD (0, 0, 0)) := by
  refine ⟨by simp [perKeyMapFrames, length_planeFrames], ?_, ?_, ?_, ?_⟩
  · intro k hk
    by_cases h9 : k < 9
    · rw [perKeyMapFrames_getD_R entries h9, (bget_buildFrame_hdr _ _ _ _).2.2.2]
      omega
    · by_cases h18 : k < 18
      · rw [show k = 9 + (k - 9) from by omega,
          perKeyMapFrames_getD_G entries (by omega),
          (bget_buildFrame_hdr _ _ _ _).2.2.2]
        omega
      · by_cases h27 : k < 27
        · rw [show k = 18 + (k - 18) from by omega,
            perKeyMapFrames_getD_B entries (by omega),
            (bget_buildFrame_hdr _ _ _ _).2.2.2]
          omega
        · rw [show k = 27 from by omega, perKeyMapFrames_getD_trailer]
          decide
  · intro k hk
    by_cases h9 : k < 9
    · rw [perKeyMapFrames_getD_R entries h9]
      exact bget_planeFrame_marker ..
    · by_cases h18 : k < 18
      · rw [show k = 9 + (k - 9) from by omega,
          perKeyMapFrames_getD_G entries (by omega)]
        exact bget_planeFrame_marker ..
      · rw [show k = 18 + (k - 18) from by omega,
          perKeyMapFrames_getD_B entries (by omega)]
        exact bget_planeFrame_marker ..
  · rw [perKeyMapFrames_getD_trailer]
    decide
  · intro idx hidx
    have hs : idx / 14 < 9 := by omega
    have hj : idx % 14 < 14 := by omega
    rw [perKeyMapFrames_getD_R entries hs, perKeyMapFrames_getD_G entries hs,
      perKeyMapFrames_getD_B entries hs,
      bget_planeFrame_value _ _ hj, bget_planeFrame_value _ _ hj,
      bget_planeFrame_value _ _ hj,
      show idx / 14 * 14 + idx % 14 = idx from by omega]
    have hplanes := foldl_planes_at idx hidx entries hdist
      ((fun _ => 0), (fun _ => 0), (fun _ => 0))
    simp only [perKeyPlanes]
    cases hlu : entries.lookup (idx : Int) with
    | none =>
      rw [hlu] at hplanes
      simp only [Option.map_none', Option.getD_none, Prod.mk.injEq] at hplanes
      obtain ⟨h1, h2, h3⟩ := hplanes
      rw [h1, h2, h3]
      rfl
    | some c =>
      obtain ⟨e, hmem, he2⟩ := lookup_mem hlu
      have hbound := hval e hmem
      rw [he2] at hbound
      rw [hlu] at hplanes
      simp only [Option.map_some', Option.getD_some, Prod.mk.injEq] at hplanes
      obtain ⟨h1, h2, h3⟩ := hplanes
      rw [h1, h2, h3]
      simp only [Option.map_some', Option.getD_some, Prod.mk.injEq]
      refine ⟨?_, ?_, ?_⟩ <;> omega

/-- Witness for C6 on the spec's test map: entries at LED indices 0, 62
and 125. -/
theorem perkey_frames_decode_witness :
    (([((0 : Int), 1, 2, 3), (62, 4, 5, 6), (125, 7, 8, 9)] :
        List (Int × Nat × Nat × Nat)).Pairwise (fun a b => a.1 ≠ b.1) ∧
      (∀ e ∈ ([((0 : Int), 1, 2, 3), (62, 4, 5, 6), (125, 7, 8, 9)] :
        List (Int × Nat × Nat × Nat)),
        e.2.1 < 256 ∧ e.2.2.1 < 256 ∧ e.2.2.2 < 256)) ∧
    ((perKeyMapFrames [((0 : Int), 1, 2, 3), (62, 4, 5, 6), (125, 7, 8, 9)]).length = 28 ∧
    (∀ k, k < 28 →
      bget ((perKeyMapFrames [((0 : Int), 1, 2, 3), (62, 4, 5, 6), (125, 7, 8, 9)]).getD k []) 3 = k) ∧
    (∀ k, k < 27 →
      bget ((perKeyMapFrames [((0 : Int), 1, 2, 3), (62, 4, 5, 6), (125, 7, 8, 9)]).getD k []) 4 = 0x0e) ∧
    (perKeyMapFrames [((0 : Int), 1, 2, 3), (62, 4, 5, 6), (125, 7, 8, 9)]).getD 27 [] =
      [0x13, 0x02, 0x1C, 27, 0x06, 0, 0, 0x5a, 0xa5, 0, 0, 0, 0, 0, 0, 0, 0, 0, 0, 0x51] ∧
    (∀ idx, idx < 126 →
      (bget ((perKeyMapFrames [((0 : Int), 1, 2, 3), (62, 4, 5, 6), (125, 7, 8, 9)]).getD (idx / 14) []) (5 + idx % 14),
       bget ((perKeyMapFrames [((0 : Int), 1, 2, 3), (62, 4, 5, 6), (125, 7, 8, 9)]).getD (9 + idx / 14) []) (5 + idx % 14),
       bget ((perKeyMapFrames [((0 : Int), 1, 2, 3), (62, 4, 5, 6), (125, 7, 8, 9)]).getD (18 + idx / 14) []) (5 + idx % 14)) =
      ((([((0 : Int), 1, 2, 3), (62, 4, 5, 6), (125, 7, 8, 9)] :
        List (Int × Nat × Nat × Nat)).lookup (idx : Int)).map
          (fun c => (c.1, c.2.1, c.2.2))).getD (0, 0, 0))) :=
  ⟨⟨by decide, by decide⟩,
    perkey_frames_decode [((0 : Int), 1, 2, 3), (62, 4, 5, 6), (125, 7, 8, 9)]
      (by decide) (by decide)⟩

end AulaF87
